import Mathlib

/-!
Shallow embedding of the Ethereum wallet orchestrator from
`src/wagyu/cli/ethereum.rs` (the `EthereumCLI::print` function and its
helpers), together with theorems checking the natural-language
specification against it.

The external "key algebra" collaborator (elliptic-curve arithmetic, BIP-39
encoding, address encoding) is out of scope for the orchestrator and is
modelled as a record of abstract operations (`KeyAlgebra`); fallible
operations return `Option` and the orchestrator maps each failure to the
error kind the source's `?` conversions produce.  `unreachable!()` in the
source is modelled as the distinct outcome `Outcome.panic`, separate from a
returned error.
-/

namespace Wagyu

/-- Error kinds of `CLIError` as the orchestrator surfaces them: each kind
corresponds to the `From` conversion applied by a `?` in the source (or to
the explicit `CLIError::AddressError` wrapping at the address-import arm). -/
inductive CLIError where
  | addressError
  | privateKeyError
  | publicKeyError
  | mnemonicError
  | extendedPrivateKeyError
  | extendedPublicKeyError
  | derivationPathError
deriving DecidableEq, Repr

/-- Outcome of one orchestrator call: a value, a returned error, or a panic
(the source's `unreachable!()`). -/
inductive Outcome (α : Type) where
  | ok : α → Outcome α
  | err : CLIError → Outcome α
  | panic : Outcome α
deriving DecidableEq, Repr

/-- Rust's `Result::or`: keep the first result when it is `Ok`, otherwise
take the second.  A panic while producing either side propagates. -/
def Outcome.or {α : Type} (a b : Outcome α) : Outcome α :=
  match a with
  | .ok x => .ok x
  | .err _ => b
  | .panic => .panic

/-- The eight BIP-39 wordlists supported by the source
(`use crate::ethereum::wordlist::*`). -/
inductive Wordlist where
  | chineseSimplified
  | chineseTraditional
  | english
  | french
  | italian
  | japanese
  | korean
  | spanish
deriving DecidableEq, Repr

/-- Position of a wordlist in the fixed recovery priority order of the
source's `.or` chain (lines 308-317). -/
def Wordlist.priority : Wordlist → Nat
  | .chineseSimplified => 0
  | .chineseTraditional => 1
  | .english => 2
  | .french => 3
  | .italian => 4
  | .japanese => 5
  | .korean => 6
  | .spanish => 7

/-- The fixed recovery priority order. -/
def wordlistOrder : List Wordlist :=
  [.chineseSimplified, .chineseTraditional, .english, .french,
   .italian, .japanese, .korean, .spanish]

/-- Abstract interface of the external key algebra consumed by the
orchestrator.  `Rng` stands for a value of `StdRng::from_entropy()`;
fallible operations return `Option` (`none` = the `Err` case of the Rust
`Result`). -/
structure KeyAlgebra (Rng PrivKey PubKey Addr XPrv XPub Mnem Path : Type) where
  privNew : Rng → Option PrivKey
  privFromStr : String → Option PrivKey
  privToString : PrivKey → String
  toPublicKey : PrivKey → PubKey
  pubFromStr : String → Option PubKey
  pubToString : PubKey → String
  toAddress : PubKey → Option Addr
  addrFromStr : String → Option Addr
  addrToString : Addr → String
  xprvFromStr : String → Option XPrv
  xprvDerive : XPrv → Path → Option XPrv
  xprvToExtendedPublicKey : XPrv → XPub
  xprvToPrivateKey : XPrv → PrivKey
  xprvToString : XPrv → String
  xpubFromStr : String → Option XPub
  xpubDerive : XPub → Path → Option XPub
  xpubToPublicKey : XPub → PubKey
  xpubToString : XPub → String
  pathFromStr : String → Option Path
  mnemFromPhrase : Wordlist → String → Option Mnem
  mnemNew : Wordlist → Nat → Rng → Option Mnem
  mnemToString : Mnem → String
  mnemToExtendedPrivateKey : Mnem → Option String → Option XPrv

/-- `WalletValues` (source lines 26-30): values to derive standard wallets. -/
structure WalletValues where
  private_key : Option String
  public_key : Option String
  address : Option String
deriving DecidableEq, Repr

/-- `HdValues` (source lines 34-45): values to derive HD wallets. -/
structure HdValues where
  account : Option String := none
  change : Option String := none
  extended_private_key : Option String := none
  extended_public_key : Option String := none
  index : Option String := none
  language : Option String := none
  mnemonic : Option String := none
  password : Option String := none
  path : Option String := none
  word_count : Option Nat := none
deriving DecidableEq, Repr

/-- `EthereumOptions` (source lines 17-22). -/
structure EthereumOptions where
  wallet_values : Option WalletValues
  hd_values : Option HdValues
  count : Nat
  json : Bool
deriving DecidableEq, Repr

/-- `EthereumWallet` (source lines 49-65): the wallet output; optional
fields absent when `none`, `address` mandatory. -/
structure EthereumWallet where
  path : Option String := none
  password : Option String := none
  mnemonic : Option String := none
  extended_private_key : Option String := none
  extended_public_key : Option String := none
  private_key : Option String := none
  public_key : Option String := none
  address : String := ""
deriving DecidableEq, Repr

/-- `EthereumWallet::default()`: every optional field `None`, empty address. -/
def emptyWallet : EthereumWallet := {}

/-- The derivation-path resolution match (source lines 265-273): template per
convention name with the index substituted, verbatim pass-through of any
other string, ethereum template when unspecified. -/
def derivationPath (path : Option String) (index : String) : String :=
  match path with
  | some "ethereum" => String.append "m/44\x27/60\x27/0\x27/" index
  | some "keepkey" => String.append (String.append "m/44\x27/60\x27/" index) "\x27/0"
  | some "ledger-legacy" => String.append "m/44\x27/60\x27/0\x27/" index
  | some "ledger-live" => String.append (String.append "m/44\x27/60\x27/" index) "\x27/0/0"
  | some "trezor" => String.append "m/44\x27/60\x27/0\x27/" index
  | some custom_path => custom_path
  | none => String.append "m/44\x27/60\x27/0\x27/" index

/-- Path resolution as the HD branch performs it (source line 264 + 265-273):
the account index defaults to `"0"` when not supplied. -/
def resolvedPath (hd_values : HdValues) : String :=
  derivationPath hd_values.path (hd_values.index.getD "0")

variable {Rng PrivKey PubKey Addr XPrv XPub Mnem Path : Type}

/-- `process_mnemonic` (source lines 252-260): recover a supplied phrase
against one wordlist, or generate a fresh mnemonic for that wordlist, then
derive the master extended private key.  Both mnemonic-library failures
(`from_phrase`, `new` and `to_extended_private_key`, all returning
`MnemonicError`) surface as the mnemonic error kind. -/
def process_mnemonic (A : KeyAlgebra Rng PrivKey PubKey Addr XPrv XPub Mnem Path)
    (wordlist : Wordlist) (mnemonic : Option String) (word_count : Nat)
    (password : Option String) (rng : Rng) : Outcome (String × XPrv) :=
  match mnemonic with
  | some phrase =>
    match A.mnemFromPhrase wordlist phrase with
    | none => .err .mnemonicError
    | some m =>
      match A.mnemToExtendedPrivateKey m password with
      | none => .err .mnemonicError
      | some x => .ok (A.mnemToString m, x)
  | none =>
    match A.mnemNew wordlist word_count rng with
    | none => .err .mnemonicError
    | some m =>
      match A.mnemToExtendedPrivateKey m password with
      | none => .err .mnemonicError
      | some x => .ok (A.mnemToString m, x)

/-- The recovery `.or` chain of the FromMnemonic branch (source lines
308-317): try every wordlist in the fixed priority order, first `Ok` wins,
the last failure is propagated. -/
def recoverMnemonic (A : KeyAlgebra Rng PrivKey PubKey Addr XPrv XPub Mnem Path)
    (mnemonic : String) (word_count : Nat) (password : Option String)
    (rng : Rng) : Outcome (String × XPrv) :=
  (((((((process_mnemonic A .chineseSimplified (some mnemonic) word_count password rng).or
    (process_mnemonic A .chineseTraditional (some mnemonic) word_count password rng)).or
    (process_mnemonic A .english (some mnemonic) word_count password rng)).or
    (process_mnemonic A .french (some mnemonic) word_count password rng)).or
    (process_mnemonic A .italian (some mnemonic) word_count password rng)).or
    (process_mnemonic A .japanese (some mnemonic) word_count password rng)).or
    (process_mnemonic A .korean (some mnemonic) word_count password rng)).or
    (process_mnemonic A .spanish (some mnemonic) word_count password rng)

/-- The language dispatch of the Generate branch (source lines 290-300):
pick the wordlist named by the language option, English by default. -/
def generateMnemonic (A : KeyAlgebra Rng PrivKey PubKey Addr XPrv XPub Mnem Path)
    (language : Option String) (word_count : Nat) (password : Option String)
    (rng : Rng) : Outcome (String × XPrv) :=
  match language with
  | some "chinese_simplified" => process_mnemonic A .chineseSimplified none word_count password rng
  | some "chinese_traditional" => process_mnemonic A .chineseTraditional none word_count password rng
  | some "english" => process_mnemonic A .english none word_count password rng
  | some "french" => process_mnemonic A .french none word_count password rng
  | some "italian" => process_mnemonic A .italian none word_count password rng
  | some "japanese" => process_mnemonic A .japanese none word_count password rng
  | some "korean" => process_mnemonic A .korean none word_count password rng
  | some "spanish" => process_mnemonic A .spanish none word_count password rng
  | _ => process_mnemonic A .english none word_count password rng

/-- The shared tail of the HD branch (source lines 350-364): derive the
plain private key (when an extended private key is present), the public key
and the address, and assemble the output record. -/
def finishHd (A : KeyAlgebra Rng PrivKey PubKey Addr XPrv XPub Mnem Path)
    (final_path password mnemonic : Option String)
    (extended_private_key : Option XPrv) (extended_public_key : XPub) :
    Outcome EthereumWallet :=
  let private_key := extended_private_key.map fun key => A.privToString (A.xprvToPrivateKey key)
  let public_key := A.xpubToPublicKey extended_public_key
  match A.toAddress public_key with
  | none => .err .addressError
  | some address =>
    .ok { path := final_path
          password := password
          mnemonic := mnemonic
          extended_private_key := extended_private_key.map A.xprvToString
          extended_public_key := some (A.xpubToString extended_public_key)
          private_key := private_key
          public_key := some (A.pubToString public_key)
          address := A.addrToString address }

/-- The HD arm of `EthereumCLI::print` (source lines 250-365): resolve the
path, dispatch on which of mnemonic / extended private key / extended
public key is supplied, and assemble the output. -/
def hdWallet (A : KeyAlgebra Rng PrivKey PubKey Addr XPrv XPub Mnem Path)
    (rng : Rng) (hd_values : HdValues) : Outcome EthereumWallet :=
  let path := resolvedPath hd_values
  let word_count := hd_values.word_count.getD 12
  let password := hd_values.password
  match hd_values.mnemonic, hd_values.extended_private_key, hd_values.extended_public_key with
  | none, none, none =>
    match generateMnemonic A hd_values.language word_count password rng with
    | .panic => .panic
    | .err e => .err e
    | .ok (mnemonic, master_extended_private_key) =>
      match A.pathFromStr path with
      | none => .err .derivationPathError
      | some p =>
        match A.xprvDerive master_extended_private_key p with
        | none => .err .extendedPrivateKeyError
        | some extended_private_key =>
          finishHd A (some path) password (some mnemonic)
            (some extended_private_key) (A.xprvToExtendedPublicKey extended_private_key)
  | some mnemonic, none, none =>
    match recoverMnemonic A mnemonic word_count password rng with
    | .panic => .panic
    | .err e => .err e
    | .ok (mnemonic, master_extended_private_key) =>
      match A.pathFromStr path with
      | none => .err .derivationPathError
      | some p =>
        match A.xprvDerive master_extended_private_key p with
        | none => .err .extendedPrivateKeyError
        | some extended_private_key =>
          finishHd A (some path) password (some mnemonic)
            (some extended_private_key) (A.xprvToExtendedPublicKey extended_private_key)
  | none, some extended_private_key, none =>
    match A.xprvFromStr extended_private_key with
    | none => .err .extendedPrivateKeyError
    | some imported =>
      match hd_values.path with
      | some _ =>
        match A.pathFromStr path with
        | none => .err .derivationPathError
        | some p =>
          match A.xprvDerive imported p with
          | none => .err .extendedPrivateKeyError
          | some derived =>
            finishHd A (some path) password none (some derived)
              (A.xprvToExtendedPublicKey derived)
      | none =>
        finishHd A none password none (some imported)
          (A.xprvToExtendedPublicKey imported)
  | none, none, some extended_public_key =>
    match A.xpubFromStr extended_public_key with
    | none => .err .extendedPublicKeyError
    | some imported =>
      match hd_values.path with
      | some _ =>
        match A.pathFromStr path with
        | none => .err .derivationPathError
        | some p =>
          match A.xpubDerive imported p with
          | none => .err .extendedPublicKeyError
          | some derived => finishHd A (some path) password none none derived
      | none => finishHd A none password none none imported
  | _, _, _ => .panic

/-- The standard-import arm of `EthereumCLI::print` (source lines 206-248),
including the private-key arm's duplicated `Ok`/`Err` match (lines 212-236)
and the `unreachable!()` fallback (line 247). -/
def importWallet (A : KeyAlgebra Rng PrivKey PubKey Addr XPrv XPub Mnem Path)
    (wallet_values : WalletValues) : Outcome EthereumWallet :=
  match wallet_values.private_key, wallet_values.public_key, wallet_values.address with
  | some private_key, none, none =>
    match A.privFromStr private_key with
    | some key =>
      let public_key := A.toPublicKey key
      match A.toAddress public_key with
      | none => .err .addressError
      | some address =>
        .ok { emptyWallet with
              private_key := some (A.privToString key)
              public_key := some (A.pubToString public_key)
              address := A.addrToString address }
    | none =>
      match A.privFromStr private_key with
      | none => .err .privateKeyError
      | some key =>
        let public_key := A.toPublicKey key
        match A.toAddress public_key with
        | none => .err .addressError
        | some address =>
          .ok { emptyWallet with
                private_key := some (A.privToString key)
                public_key := some (A.pubToString public_key)
                address := A.addrToString address }
  | none, some public_key, none =>
    match A.pubFromStr public_key with
    | none => .err .publicKeyError
    | some key =>
      match A.toAddress key with
      | none => .err .addressError
      | some address =>
        .ok { emptyWallet with
              public_key := some (A.pubToString key)
              address := A.addrToString address }
  | none, none, some address =>
    match A.addrFromStr address with
    | some addr => .ok { emptyWallet with address := A.addrToString addr }
    | none => .err .addressError
  | _, _, _ => .panic

/-- One loop iteration of `EthereumCLI::print` (source lines 193-367): the
top-level dispatch on which option block is present.  `(None, None)` is the
Random branch, `(Some, Some)` hits `unreachable!()`. -/
def buildWallet (A : KeyAlgebra Rng PrivKey PubKey Addr XPrv XPub Mnem Path)
    (rng : Rng) (wallet_values : Option WalletValues)
    (hd_values : Option HdValues) : Outcome EthereumWallet :=
  match wallet_values, hd_values with
  | none, none =>
    match A.privNew rng with
    | none => .err .privateKeyError
    | some private_key =>
      let public_key := A.toPublicKey private_key
      match A.toAddress public_key with
      | none => .err .addressError
      | some address =>
        .ok { emptyWallet with
              private_key := some (A.privToString private_key)
              public_key := some (A.pubToString public_key)
              address := A.addrToString address }
  | some wallet_values, none => importWallet A wallet_values
  | none, some hd_values => hdWallet A rng hd_values
  | some _, some _ => .panic

/-- The `for _ in 0..count` loop of `EthereumCLI::print` (source lines
192-373), started at iteration index `i` with `n` iterations left.  Each
iteration draws its own fresh entropy (`entropy i` models that iteration's
`StdRng::from_entropy()` values), emits its wallet on success and aborts the
whole run on the first failure. -/
def runIterations (A : KeyAlgebra Rng PrivKey PubKey Addr XPrv XPub Mnem Path)
    (entropy : Nat → Rng) (wallet_values : Option WalletValues)
    (hd_values : Option HdValues) :
    Nat → Nat → List EthereumWallet × Outcome Unit
  | 0, _ => ([], .ok ())
  | n + 1, i =>
    match buildWallet A (entropy i) wallet_values hd_values with
    | .ok w =>
      let rest := runIterations A entropy wallet_values hd_values n (i + 1)
      (w :: rest.1, rest.2)
    | .err e => ([], .err e)
    | .panic => ([], .panic)

/-- `EthereumCLI::print` (source lines 191-376): run `count` iterations,
returning the wallets emitted (in emission order) and the final outcome. -/
def EthereumCLI.print (A : KeyAlgebra Rng PrivKey PubKey Addr XPrv XPub Mnem Path)
    (entropy : Nat → Rng) (options : EthereumOptions) :
    List EthereumWallet × Outcome Unit :=
  runIterations A entropy options.wallet_values options.hd_values options.count 0

/-- A small concrete instantiation of the key algebra over string carriers,
used to evaluate the orchestrator on concrete inputs (witnesses and
counterexamples).  Every carrier is `String`, entropy is a `Nat`. -/
def testAlgebra : KeyAlgebra Nat String String String String String String String where
  privNew r := some (String.append "K" (toString r))
  privFromStr s := if s = "goodkey" then some s else none
  privToString s := s
  toPublicKey s := String.append "P" s
  pubFromStr s := if s = "goodpub" then some s else none
  pubToString s := s
  toAddress s := some (String.append "A" s)
  addrFromStr s := if s = "goodaddr" then some "CHECKSUMMED" else none
  addrToString s := s
  xprvFromStr s := if s = "xprv1" then some s else none
  xprvDerive k p := some (String.append k (String.append ":" p))
  xprvToExtendedPublicKey k := String.append "pub-" k
  xprvToPrivateKey k := String.append "prv-" k
  xprvToString s := s
  xpubFromStr s := if s = "xpub1" then some s else none
  xpubDerive k p := some (String.append k (String.append ":" p))
  xpubToPublicKey k := String.append "P" k
  xpubToString s := s
  pathFromStr s := some s
  mnemFromPhrase wl s := if s = "seed words" ∧ wl = Wordlist.french then some s else none
  mnemNew _ wc _ := if wc = 12 then some "fresh words" else none
  mnemToString s := s
  mnemToExtendedPrivateKey m _ := some (String.append "xprv-" m)

/-! ## Helper notions used by the theorems -/

/-- Whether an outcome is a success. -/
def Outcome.isOk {α : Type} : Outcome α → Bool
  | .ok _ => true
  | _ => false

/-- Number of supplied (i.e. `some`) values among three optional inputs. -/
def suppliedCount (a b c : Option String) : Nat :=
  (if a.isSome then 1 else 0) + (if b.isSome then 1 else 0) + (if c.isSome then 1 else 0)

variable {Rng PrivKey PubKey Addr XPrv XPub Mnem Path : Type}

/-- Every failure of `process_mnemonic` on a supplied phrase surfaces the
mnemonic error kind: either the phrase fails wordlist validation or the
seed-to-master-key step fails, and both are `MnemonicError` conversions. -/
theorem process_mnemonic_some_cases
    (A : KeyAlgebra Rng PrivKey PubKey Addr XPrv XPub Mnem Path)
    (wl : Wordlist) (phrase : String) (wc : Nat) (pw : Option String) (rng : Rng) :
    process_mnemonic A wl (some phrase) wc pw rng = .err .mnemonicError ∨
      ∃ v, process_mnemonic A wl (some phrase) wc pw rng = .ok v := by
  rcases h : A.mnemFromPhrase wl phrase with _ | m
  · exact Or.inl (by simp only [process_mnemonic, h])
  · rcases h2 : A.mnemToExtendedPrivateKey m pw with _ | x
    · exact Or.inl (by simp only [process_mnemonic, h, h2])
    · exact Or.inr ⟨(A.mnemToString m, x), by simp only [process_mnemonic, h, h2]⟩

/-- A failed `process_mnemonic` on a supplied phrase equals the mnemonic
error. -/
theorem process_mnemonic_err_of_not_ok
    (A : KeyAlgebra Rng PrivKey PubKey Addr XPrv XPub Mnem Path)
    (wl : Wordlist) (phrase : String) (wc : Nat) (pw : Option String) (rng : Rng)
    (h : (process_mnemonic A wl (some phrase) wc pw rng).isOk = false) :
    process_mnemonic A wl (some phrase) wc pw rng = .err .mnemonicError := by
  rcases process_mnemonic_some_cases A wl phrase wc pw rng with h1 | ⟨v, hv⟩
  · exact h1
  · rw [hv] at h
    simp [Outcome.isOk] at h

/-- `Result::or` yields an error only when both sides are errors, and then
it is the second side's error. -/
theorem Outcome.or_eq_err {α : Type} {a b : Outcome α} {e : CLIError}
    (h : a.or b = .err e) : (∃ e2, a = .err e2) ∧ b = .err e := by
  rcases a with x | e2 | _
  · simp [Outcome.or] at h
  · exact ⟨⟨e2, rfl⟩, h⟩
  · simp [Outcome.or] at h

/-! ## C2: derivation-path resolution -/

/-- C2: for every convention name and account index, path resolution returns
exactly the documented template with the index substituted; keepkey and
ledger-live have their own templates; any other string passes through
verbatim; the index defaults to "0" when not supplied.  Resolution is a
total function (`derivationPath` returns a `String`, never an error). -/
theorem derivation_path_resolution (index : String) (custom : String) (hd : HdValues)
    (hcustom : custom ∉ (["ethereum", "keepkey", "ledger-legacy", "ledger-live", "trezor"] : List String))
    (hidx : hd.index = none) :
    derivationPath (some "ethereum") index = String.append "m/44\x27/60\x27/0\x27/" index
    ∧ derivationPath (some "ledger-legacy") index = String.append "m/44\x27/60\x27/0\x27/" index
    ∧ derivationPath (some "trezor") index = String.append "m/44\x27/60\x27/0\x27/" index
    ∧ derivationPath none index = String.append "m/44\x27/60\x27/0\x27/" index
    ∧ derivationPath (some "keepkey") index = String.append (String.append "m/44\x27/60\x27/" index) "\x27/0"
    ∧ derivationPath (some "ledger-live") index = String.append (String.append "m/44\x27/60\x27/" index) "\x27/0/0"
    ∧ derivationPath (some custom) index = custom
    ∧ resolvedPath hd = derivationPath hd.path "0" := by
  simp only [List.mem_cons, List.not_mem_nil, or_false] at hcustom
  push_neg at hcustom
  obtain ⟨h1, h2, h3, h4, h5⟩ := hcustom
  refine ⟨rfl, rfl, rfl, rfl, rfl, rfl, ?_, ?_⟩
  · unfold derivationPath
    split <;> simp_all
  · simp [resolvedPath, hidx]

/-- Witness for C2 at index "7", custom path "m/0/1", and an `HdValues`
with no index supplied. -/
theorem derivation_path_resolution_witness :
    derivationPath (some "ethereum") "7" = String.append "m/44\x27/60\x27/0\x27/" "7"
    ∧ derivationPath (some "ledger-legacy") "7" = String.append "m/44\x27/60\x27/0\x27/" "7"
    ∧ derivationPath (some "trezor") "7" = String.append "m/44\x27/60\x27/0\x27/" "7"
    ∧ derivationPath none "7" = String.append "m/44\x27/60\x27/0\x27/" "7"
    ∧ derivationPath (some "keepkey") "7" = String.append (String.append "m/44\x27/60\x27/" "7") "\x27/0"
    ∧ derivationPath (some "ledger-live") "7" = String.append (String.append "m/44\x27/60\x27/" "7") "\x27/0/0"
    ∧ derivationPath (some "m/0/1") "7" = "m/0/1"
    ∧ resolvedPath { path := some "keepkey" } = derivationPath (some "keepkey") "0" :=
  derivation_path_resolution "7" "m/0/1" { path := some "keepkey" } (by decide) rfl

/-! ## C6: the Import/Address branch -/

/-- C6: importing a valid address string outputs only the canonical
(re-serialized) form of the parsed address, with every other field absent;
an invalid address string fails with the distinct address error kind and no
other. -/
theorem import_address_branch
    (A : KeyAlgebra Rng PrivKey PubKey Addr XPrv XPub Mnem Path) (s : String) :
    (∀ a, A.addrFromStr s = some a →
      importWallet A ⟨none, none, some s⟩ = .ok { emptyWallet with address := A.addrToString a })
    ∧ (A.addrFromStr s = none →
      importWallet A ⟨none, none, some s⟩ = .err .addressError) := by
  constructor
  · intro a ha
    simp only [importWallet, ha]
  · intro ha
    simp only [importWallet, ha]

/-- Witness for C6: `testAlgebra` maps "goodaddr" to the canonical form
"CHECKSUMMED" and rejects "bad" with the address error. -/
theorem import_address_branch_witness :
    importWallet testAlgebra ⟨none, none, some "goodaddr"⟩ =
      .ok { emptyWallet with address := "CHECKSUMMED" }
    ∧ importWallet testAlgebra ⟨none, none, some "bad"⟩ = .err .addressError :=
  ⟨(import_address_branch testAlgebra "goodaddr").1 "CHECKSUMMED" (by decide),
   (import_address_branch testAlgebra "bad").2 (by decide)⟩

/-! ## C10: the duplicated Ok/Err arms of the private-key import -/

/-- Modelled from the spec side of the refinement: the Import/PrivateKey
branch as a single parse (propagating its failure) followed by public-key
and address derivation. -/
def importPrivateKeySingleParse
    (A : KeyAlgebra Rng PrivKey PubKey Addr XPrv XPub Mnem Path) (s : String) :
    Outcome EthereumWallet :=
  match A.privFromStr s with
  | none => .err .privateKeyError
  | some key =>
    let public_key := A.toPublicKey key
    match A.toAddress public_key with
    | none => .err .addressError
    | some address =>
      .ok { emptyWallet with
            private_key := some (A.privToString key)
            public_key := some (A.pubToString public_key)
            address := A.addrToString address }

/-- C10: the Import/PrivateKey branch's two match arms (the `Ok` arm reusing
the parsed key, and the `Err` arm re-parsing the same string and propagating
with `?`) are equivalent to one parse followed by public-key and address
derivation, because parsing a fixed string is deterministic. -/
theorem import_private_key_arms_equiv
    (A : KeyAlgebra Rng PrivKey PubKey Addr XPrv XPub Mnem Path) (s : String) :
    importWallet A ⟨some s, none, none⟩ = importPrivateKeySingleParse A s := by
  rcases h : A.privFromStr s with _ | key
  · simp only [importWallet, importPrivateKeySingleParse, h]
  · simp only [importWallet, importPrivateKeySingleParse, h]

/-! ## C1: ambiguous input is rejected, but by panicking -/

/-- C1 counterexample: on concrete ambiguous inputs (a private key and a
public key both supplied; a mnemonic and an extended private key both
supplied) the orchestrator panics at the `unreachable!()` fallback arm — it
does not return an AmbiguousInput error (no such error value exists in the
code; the result is `Outcome.panic`, not `Outcome.err` of any kind). -/
theorem ambiguous_input_no_error_cex :
    buildWallet testAlgebra 0 (some ⟨some "goodkey", some "goodpub", none⟩) none = .panic
    ∧ buildWallet testAlgebra 0 none
        (some { mnemonic := some "seed words", extended_private_key := some "xprv1" }) = .panic :=
  ⟨rfl, rfl⟩

/-- C1 (amended): for every invocation supplying zero or more than one of
{private key, public key, address}, or more than one of {mnemonic, extended
private key, extended public key}, the orchestrator rejects the input by
panicking at the `unreachable!()` fallback arm — it never proceeds on an
arbitrarily chosen input, and it returns no error value. -/
theorem ambiguous_input_rejected_by_panic
    (A : KeyAlgebra Rng PrivKey PubKey Addr XPrv XPub Mnem Path) (rng : Rng)
    (wv : WalletValues) (hv : HdValues)
    (hwv : suppliedCount wv.private_key wv.public_key wv.address ≠ 1)
    (hhv : 1 < suppliedCount hv.mnemonic hv.extended_private_key hv.extended_public_key) :
    buildWallet A rng (some wv) none = .panic
    ∧ buildWallet A rng none (some hv) = .panic := by
  constructor
  · obtain ⟨pk, pub, addr⟩ := wv
    rcases pk with _ | pk <;> rcases pub with _ | pub <;> rcases addr with _ | addr <;>
      first
        | rfl
        | exact absurd hhv (by decide)
        | exact absurd rfl hwv
  · obtain ⟨acc, chg, xprv, xpub, idx, lang, mn, pw, pth, wc⟩ := hv
    rcases mn with _ | mn <;> rcases xprv with _ | xprv <;> rcases xpub with _ | xpub <;>
      first
        | rfl
        | (exfalso; simp [suppliedCount] at hhv)

/-- Witness for the amended C1: zero supplied plain-import values, and an
extended private and an extended public key both supplied. -/
theorem ambiguous_input_rejected_by_panic_witness :
    buildWallet testAlgebra 0 (some ⟨none, none, none⟩) none = .panic
    ∧ buildWallet testAlgebra 0 none
        (some { extended_private_key := some "xprv1", extended_public_key := some "xpub1" }) = .panic :=
  ambiguous_input_rejected_by_panic testAlgebra 0 ⟨none, none, none⟩
    { extended_private_key := some "xprv1", extended_public_key := some "xpub1" }
    (by decide) (by decide)

/-! ## C8: the language hint is not consulted when a phrase is supplied -/

/-- C8: for every FromMnemonic invocation (a phrase supplied), the result is
independent of the caller's language hint: two runs differing only in the
language field produce identical outcomes, because recovery always performs
the full fixed-priority wordlist trial. -/
theorem from_mnemonic_language_hint_independent
    (A : KeyAlgebra Rng PrivKey PubKey Addr XPrv XPub Mnem Path) (rng : Rng)
    (acc chg xprv xpub idx pw pathOpt : Option String) (wc : Option Nat)
    (m : String) (lang1 lang2 : Option String) :
    hdWallet A rng { account := acc, change := chg, extended_private_key := xprv,
                     extended_public_key := xpub, index := idx, language := lang1,
                     mnemonic := some m, password := pw, path := pathOpt, word_count := wc }
      = hdWallet A rng { account := acc, change := chg, extended_private_key := xprv,
                         extended_public_key := xpub, index := idx, language := lang2,
                         mnemonic := some m, password := pw, path := pathOpt, word_count := wc } := by
  rcases xprv with _ | x <;> rcases xpub with _ | y <;> rfl

/-! ## C9: the word count is not consulted when a phrase is supplied -/

/-- C9: for every invocation that supplies a mnemonic phrase, the result is
independent of the word_count option: the supplied word count is consulted
only when generating a fresh mnemonic (`process_mnemonic` with a supplied
phrase never reads it). -/
theorem from_mnemonic_wordcount_independent
    (A : KeyAlgebra Rng PrivKey PubKey Addr XPrv XPub Mnem Path) (rng : Rng)
    (acc chg xprv xpub idx lang pw pathOpt : Option String)
    (m : String) (wc1 wc2 : Option Nat) :
    hdWallet A rng { account := acc, change := chg, extended_private_key := xprv,
                     extended_public_key := xpub, index := idx, language := lang,
                     mnemonic := some m, password := pw, path := pathOpt, word_count := wc1 }
      = hdWallet A rng { account := acc, change := chg, extended_private_key := xprv,
                         extended_public_key := xpub, index := idx, language := lang,
                         mnemonic := some m, password := pw, path := pathOpt, word_count := wc2 } := by
  rcases xprv with _ | x <;> rcases xpub with _ | y <;> rfl

/-! ## C4 and C5: extended-key imports -/

/-- Shape of every successful HD output: the shared tail (source lines
350-364) copies the final path, the password option, the mnemonic and the
extended keys into the output record. -/
theorem finishHd_ok_shape
    (A : KeyAlgebra Rng PrivKey PubKey Addr XPrv XPub Mnem Path)
    (fp pw mn : Option String) (xprvOpt : Option XPrv) (xpub : XPub)
    (w : EthereumWallet) (hw : finishHd A fp pw mn xprvOpt xpub = .ok w) :
    w.path = fp ∧ w.password = pw ∧ w.mnemonic = mn
    ∧ w.extended_private_key = xprvOpt.map A.xprvToString
    ∧ w.extended_public_key = some (A.xpubToString xpub)
    ∧ w.private_key = xprvOpt.map (fun k => A.privToString (A.xprvToPrivateKey k))
    ∧ w.public_key = some (A.pubToString (A.xpubToPublicKey xpub)) := by
  rcases h : A.toAddress (A.xpubToPublicKey xpub) with _ | a
  · simp only [finishHd, h] at hw
    exact Outcome.noConfusion hw
  · simp only [finishHd, h] at hw
    injection hw with hw
    subst hw
    exact ⟨rfl, rfl, rfl, rfl, rfl, rfl, rfl⟩

/-- C4: a FromExtendedPrivate invocation with no explicitly requested path
performs no derivation on the parsed extended private key: the output path
is absent, the output extended private key is the unmodified imported key,
and the output extended public key is `to_extended_public_key()` of that
unmodified key. -/
theorem from_extended_private_no_path_no_derivation
    (A : KeyAlgebra Rng PrivKey PubKey Addr XPrv XPub Mnem Path) (rng : Rng)
    (acc chg idx lang pw : Option String) (wc : Option Nat)
    (s : String) (k : XPrv) (w : EthereumWallet)
    (hparse : A.xprvFromStr s = some k)
    (hw : hdWallet A rng { account := acc, change := chg, extended_private_key := some s,
                           extended_public_key := none, index := idx, language := lang,
                           mnemonic := none, password := pw, path := none, word_count := wc }
            = .ok w) :
    w.path = none ∧ w.extended_private_key = some (A.xprvToString k)
    ∧ w.extended_public_key = some (A.xpubToString (A.xprvToExtendedPublicKey k)) := by
  simp only [hdWallet, hparse] at hw
  obtain ⟨h1, _, _, h4, h5, _, _⟩ :=
    finishHd_ok_shape A none pw none (some k) (A.xprvToExtendedPublicKey k) w hw
  exact ⟨h1, by simpa using h4, h5⟩

/-- The wallet produced by `testAlgebra` for a FromExtendedPrivate
invocation of "xprv1" with no requested path. -/
def xprvImportWallet : EthereumWallet :=
  { path := none, password := none, mnemonic := none,
    extended_private_key := some "xprv1", extended_public_key := some "pub-xprv1",
    private_key := some "prv-xprv1", public_key := some "Ppub-xprv1",
    address := "APpub-xprv1" }

/-- Witness for C4 at the concrete key "xprv1" under `testAlgebra`. -/
theorem from_extended_private_no_path_no_derivation_witness :
    xprvImportWallet.path = none
    ∧ xprvImportWallet.extended_private_key = some (testAlgebra.xprvToString "xprv1")
    ∧ xprvImportWallet.extended_public_key
        = some (testAlgebra.xpubToString (testAlgebra.xprvToExtendedPublicKey "xprv1")) :=
  from_extended_private_no_path_no_derivation testAlgebra 0 none none none none none none
    "xprv1" "xprv1" xprvImportWallet (by decide) (by decide)

/-- C5 counterexample: a FromExtendedPublic invocation that also supplies a
password succeeds with an output whose password field is populated, so the
output is not limited to {path?, extended_public_key, public_key, address}:
the orchestrator copies the password option into every HD output. -/
theorem from_extended_public_password_cex :
    hdWallet testAlgebra 0 { extended_public_key := some "xpub1", password := some "pw" }
      = .ok { path := none, password := some "pw", mnemonic := none,
              extended_private_key := none, extended_public_key := some "xpub1",
              private_key := none, public_key := some "Pxpub1", address := "APxpub1" } := by
  decide

/-- C5 (amended): every successful FromExtendedPublic invocation outputs
exactly the fields path (present iff a path was explicitly requested),
extended_public_key, public_key, address, and additionally password exactly
as supplied; it contains no private material (no private_key, no
extended_private_key) and no mnemonic. -/
theorem from_extended_public_output_shape
    (A : KeyAlgebra Rng PrivKey PubKey Addr XPrv XPub Mnem Path) (rng : Rng)
    (acc chg idx lang pw pathOpt : Option String) (wc : Option Nat)
    (s : String) (w : EthereumWallet)
    (hw : hdWallet A rng { account := acc, change := chg, extended_private_key := none,
                           extended_public_key := some s, index := idx, language := lang,
                           mnemonic := none, password := pw, path := pathOpt, word_count := wc }
            = .ok w) :
    w.mnemonic = none ∧ w.extended_private_key = none ∧ w.private_key = none
    ∧ w.password = pw
    ∧ w.extended_public_key.isSome = true
    ∧ w.public_key.isSome = true
    ∧ w.path.isSome = pathOpt.isSome := by
  rcases hA : A.xpubFromStr s with _ | imported
  · simp only [hdWallet, hA] at hw
    exact Outcome.noConfusion hw
  · rcases pathOpt with _ | reqPath
    · simp only [hdWallet, hA] at hw
      obtain ⟨h1, h2, h3, h4, h5, h6, h7⟩ :=
        finishHd_ok_shape A none pw none none imported w hw
      exact ⟨h3, by simpa using h4, by simpa using h6, h2,
             by rw [h5]; rfl, by rw [h7]; rfl, by rw [h1]⟩
    · simp only [hdWallet, hA] at hw
      split at hw
      · exact Outcome.noConfusion hw
      · split at hw
        · exact Outcome.noConfusion hw
        · obtain ⟨h1, h2, h3, h4, h5, h6, h7⟩ :=
            finishHd_ok_shape _ _ _ _ _ _ _ hw
          exact ⟨h3, by simpa using h4, by simpa using h6, h2,
                 by rw [h5]; rfl, by rw [h7]; rfl, by rw [h1]; rfl⟩

/-- Witness for the amended C5: "xpub1" imported with password "pw" and no
requested path under `testAlgebra`. -/
theorem from_extended_public_output_shape_witness :
    ({ path := none, password := some "pw", mnemonic := none,
       extended_private_key := none, extended_public_key := some "xpub1",
       private_key := none, public_key := some "Pxpub1",
       address := "APxpub1" } : EthereumWallet).mnemonic = none
    ∧ ({ path := none, password := some "pw", mnemonic := none,
         extended_private_key := none, extended_public_key := some "xpub1",
         private_key := none, public_key := some "Pxpub1",
         address := "APxpub1" } : EthereumWallet).extended_private_key = none
    ∧ ({ path := none, password := some "pw", mnemonic := none,
         extended_private_key := none, extended_public_key := some "xpub1",
         private_key := none, public_key := some "Pxpub1",
         address := "APxpub1" } : EthereumWallet).private_key = none
    ∧ ({ path := none, password := some "pw", mnemonic := none,
         extended_private_key := none, extended_public_key := some "xpub1",
         private_key := none, public_key := some "Pxpub1",
         address := "APxpub1" } : EthereumWallet).password = some "pw"
    ∧ ({ path := none, password := some "pw", mnemonic := none,
         extended_private_key := none, extended_public_key := some "xpub1",
         private_key := none, public_key := some "Pxpub1",
         address := "APxpub1" } : EthereumWallet).extended_public_key.isSome = true
    ∧ ({ path := none, password := some "pw", mnemonic := none,
         extended_private_key := none, extended_public_key := some "xpub1",
         private_key := none, public_key := some "Pxpub1",
         address := "APxpub1" } : EthereumWallet).public_key.isSome = true
    ∧ ({ path := none, password := some "pw", mnemonic := none,
         extended_private_key := none, extended_public_key := some "xpub1",
         private_key := none, public_key := some "Pxpub1",
         address := "APxpub1" } : EthereumWallet).path.isSome = (none : Option String).isSome :=
  from_extended_public_output_shape testAlgebra 0 none none none none (some "pw") none none
    "xpub1" _ (by decide)

/-! ## C3: mnemonic recovery trial order and error kind -/

/-- Any error a phrase-recovery attempt returns is the mnemonic error kind. -/
theorem process_mnemonic_err_kind
    (A : KeyAlgebra Rng PrivKey PubKey Addr XPrv XPub Mnem Path)
    (wl : Wordlist) (phrase : String) (wc : Nat) (pw : Option String) (rng : Rng)
    (e : CLIError) (h : process_mnemonic A wl (some phrase) wc pw rng = .err e) :
    e = .mnemonicError := by
  rcases process_mnemonic_some_cases A wl phrase wc pw rng with h1 | ⟨v, hv⟩
  · rw [h] at h1
    injection h1
  · rw [hv] at h
    exact Outcome.noConfusion h

/-- C3: recovery tries the eight wordlists in the fixed priority order
chinese_simplified, chinese_traditional, english, french, italian, japanese,
korean, spanish; it returns the result of the first wordlist whose
validation succeeds; and it fails — with the mnemonic (InvalidMnemonic)
error kind and no other — exactly when all eight wordlists fail. -/
theorem mnemonic_recovery_priority
    (A : KeyAlgebra Rng PrivKey PubKey Addr XPrv XPub Mnem Path)
    (m : String) (wc : Nat) (pw : Option String) (rng : Rng) :
    ((∀ wl : Wordlist, (process_mnemonic A wl (some m) wc pw rng).isOk = false) →
       recoverMnemonic A m wc pw rng = .err .mnemonicError)
    ∧ (∀ (wl : Wordlist) (v : String × XPrv),
         process_mnemonic A wl (some m) wc pw rng = .ok v →
         (∀ wl2 : Wordlist, wl2.priority < wl.priority →
            (process_mnemonic A wl2 (some m) wc pw rng).isOk = false) →
         recoverMnemonic A m wc pw rng = .ok v)
    ∧ (∀ e, recoverMnemonic A m wc pw rng = .err e →
         e = .mnemonicError
         ∧ ∀ wl : Wordlist, (process_mnemonic A wl (some m) wc pw rng).isOk = false) := by
  refine ⟨?_, ?_, ?_⟩
  · intro h
    have h8 : ∀ wl, process_mnemonic A wl (some m) wc pw rng = .err .mnemonicError :=
      fun wl => process_mnemonic_err_of_not_ok A wl m wc pw rng (h wl)
    unfold recoverMnemonic
    rw [h8 .chineseSimplified, h8 .chineseTraditional, h8 .english, h8 .french,
        h8 .italian, h8 .japanese, h8 .korean, h8 .spanish]
    rfl
  · intro wl v hok hearlier
    have herr : ∀ wl2 : Wordlist, wl2.priority < wl.priority →
        process_mnemonic A wl2 (some m) wc pw rng = .err .mnemonicError :=
      fun wl2 h2 => process_mnemonic_err_of_not_ok A wl2 m wc pw rng (hearlier wl2 h2)
    unfold recoverMnemonic
    cases wl with
    | chineseSimplified =>
      rw [hok]
      rfl
    | chineseTraditional =>
      rw [herr .chineseSimplified (by decide), hok]
      rfl
    | english =>
      rw [herr .chineseSimplified (by decide), herr .chineseTraditional (by decide), hok]
      rfl
    | french =>
      rw [herr .chineseSimplified (by decide), herr .chineseTraditional (by decide),
          herr .english (by decide), hok]
      rfl
    | italian =>
      rw [herr .chineseSimplified (by decide), herr .chineseTraditional (by decide),
          herr .english (by decide), herr .french (by decide), hok]
      rfl
    | japanese =>
      rw [herr .chineseSimplified (by decide), herr .chineseTraditional (by decide),
          herr .english (by decide), herr .french (by decide), herr .italian (by decide), hok]
      rfl
    | korean =>
      rw [herr .chineseSimplified (by decide), herr .chineseTraditional (by decide),
          herr .english (by decide), herr .french (by decide), herr .italian (by decide),
          herr .japanese (by decide), hok]
      rfl
    | spanish =>
      rw [herr .chineseSimplified (by decide), herr .chineseTraditional (by decide),
          herr .english (by decide), herr .french (by decide), herr .italian (by decide),
          herr .japanese (by decide), herr .korean (by decide), hok]
      rfl
  · intro e he
    unfold recoverMnemonic at he
    obtain ⟨⟨a7, hp7⟩, hsp⟩ := Outcome.or_eq_err he
    obtain ⟨⟨a6, hp6⟩, hko⟩ := Outcome.or_eq_err hp7
    obtain ⟨⟨a5, hp5⟩, hja⟩ := Outcome.or_eq_err hp6
    obtain ⟨⟨a4, hp4⟩, hit⟩ := Outcome.or_eq_err hp5
    obtain ⟨⟨a3, hp3⟩, hfr⟩ := Outcome.or_eq_err hp4
    obtain ⟨⟨a2, hp2⟩, hen⟩ := Outcome.or_eq_err hp3
    obtain ⟨⟨a1, hcs⟩, hct⟩ := Outcome.or_eq_err hp2
    refine ⟨process_mnemonic_err_kind A .spanish m wc pw rng e hsp, ?_⟩
    intro wl
    cases wl with
    | chineseSimplified => rw [hcs]; rfl
    | chineseTraditional => rw [hct]; rfl
    | english => rw [hen]; rfl
    | french => rw [hfr]; rfl
    | italian => rw [hit]; rfl
    | japanese => rw [hja]; rfl
    | korean => rw [hko]; rfl
    | spanish => rw [hsp]; rfl

/-- Witness for C3 under `testAlgebra`: the phrase "garbage" validates
against no wordlist and recovery fails with the mnemonic error only; the
phrase "seed words" validates against french (priority 3), the three
earlier wordlists fail on it, and recovery returns the french result. -/
theorem mnemonic_recovery_priority_witness :
    recoverMnemonic testAlgebra "garbage" 12 none 0 = .err .mnemonicError
    ∧ recoverMnemonic testAlgebra "seed words" 12 none 0
        = .ok ("seed words", "xprv-seed words")
    ∧ (process_mnemonic testAlgebra .korean (some "garbage") 12 none 0).isOk = false :=
  ⟨(mnemonic_recovery_priority testAlgebra "garbage" 12 none 0).1
     (by intro wl; cases wl <;> decide),
   (mnemonic_recovery_priority testAlgebra "seed words" 12 none 0).2.1 .french
     ("seed words", "xprv-seed words") (by decide)
     (by intro wl2 h2; cases wl2 <;> first | decide | exact absurd h2 (by decide)),
   ((mnemonic_recovery_priority testAlgebra "garbage" 12 none 0).2.2 .mnemonicError
     ((mnemonic_recovery_priority testAlgebra "garbage" 12 none 0).1
       (by intro wl; cases wl <;> decide))).2 .korean⟩

/-! ## C7: the count loop is sequential and aborts on the first error -/

/-- First-error behavior of the loop, general in the start index: if the
iterations at indices `i ≤ j < i + k` succeed and iteration `i + k` fails,
the run emits exactly the `k` earlier wallets in iteration order and stops
with that error; iterations beyond `i + k` are never consulted. -/
theorem runIterations_first_err
    (A : KeyAlgebra Rng PrivKey PubKey Addr XPrv XPub Mnem Path)
    (entropy : Nat → Rng) (wv : Option WalletValues) (hv : Option HdValues)
    (wfun : Nat → EthereumWallet) (e : CLIError) :
    ∀ (k n i : Nat), k < n →
      (∀ j, i ≤ j → j < i + k → buildWallet A (entropy j) wv hv = .ok (wfun j)) →
      buildWallet A (entropy (i + k)) wv hv = .err e →
      runIterations A entropy wv hv n i = ((List.range' i k).map wfun, .err e) := by
  intro k
  induction k with
  | zero =>
    intro n i hk hok herr
    rcases n with _ | n2
    · exact absurd hk (by omega)
    · simp only [runIterations]
      rw [Nat.add_zero] at herr
      rw [herr]
      rfl
  | succ k ih =>
    intro n i hk hok herr
    rcases n with _ | n2
    · exact absurd hk (by omega)
    · have hoki : buildWallet A (entropy i) wv hv = .ok (wfun i) :=
        hok i (Nat.le_refl i) (by omega)
      simp only [runIterations]
      rw [hoki]
      have ihh := ih n2 (i + 1) (by omega)
        (fun j h1 h2 => hok j (by omega) (by omega))
        (by have h : i + 1 + k = i + (k + 1) := by omega
            rw [h]
            exact herr)
      rw [ihh, List.range'_succ]
      rfl

/-- All-success behavior of the loop: when every iteration succeeds, the
run emits all `n` wallets in iteration order and finishes cleanly. -/
theorem runIterations_all_ok
    (A : KeyAlgebra Rng PrivKey PubKey Addr XPrv XPub Mnem Path)
    (entropy : Nat → Rng) (wv : Option WalletValues) (hv : Option HdValues)
    (wfun : Nat → EthereumWallet) :
    ∀ (n i : Nat),
      (∀ j, i ≤ j → j < i + n → buildWallet A (entropy j) wv hv = .ok (wfun j)) →
      runIterations A entropy wv hv n i = ((List.range' i n).map wfun, .ok ()) := by
  intro n
  induction n with
  | zero => intro i _; rfl
  | succ n ih =>
    intro i h
    have hoki := h i (Nat.le_refl i) (by omega)
    simp only [runIterations]
    rw [hoki, ih (i + 1) (fun j h1 h2 => h j (by omega) (by omega)), List.range'_succ]
    rfl

/-- C7: with `count = N`, iterations run strictly sequentially in index
order; if iteration `k` fails, the run aborts with that error, the failing
iteration emits nothing, exactly the `k` previously emitted wallets remain
(in order), and no iteration after `k` runs — the result is unchanged under
any replacement of the entropy of iterations after `k`. -/
theorem print_runs_sequential_abort_on_first_error
    (A : KeyAlgebra Rng PrivKey PubKey Addr XPrv XPub Mnem Path)
    (entropy : Nat → Rng) (options : EthereumOptions)
    (wfun : Nat → EthereumWallet) (e : CLIError) (k : Nat)
    (hk : k < options.count)
    (hok : ∀ j, j < k →
      buildWallet A (entropy j) options.wallet_values options.hd_values = .ok (wfun j))
    (herr : buildWallet A (entropy k) options.wallet_values options.hd_values = .err e) :
    EthereumCLI.print A entropy options = ((List.range k).map wfun, .err e)
    ∧ ∀ entropy2 : Nat → Rng, (∀ j, j ≤ k → entropy2 j = entropy j) →
        EthereumCLI.print A entropy2 options = ((List.range k).map wfun, .err e) := by
  constructor
  · have h := runIterations_first_err A entropy options.wallet_values options.hd_values
      wfun e k options.count 0 hk (fun j _ h2 => hok j (by omega)) (by simpa using herr)
    unfold EthereumCLI.print
    rw [List.range_eq_range']
    exact h
  · intro entropy2 hagree
    have h := runIterations_first_err A entropy2 options.wallet_values options.hd_values
      wfun e k options.count 0 hk
      (fun j _ h2 => by rw [hagree j (by omega)]; exact hok j (by omega))
      (by rw [Nat.zero_add, hagree k (Nat.le_refl k)]; exact herr)
    unfold EthereumCLI.print
    rw [List.range_eq_range']
    exact h

/-- A key algebra whose private-key generation succeeds only for the
entropy value 0: iteration 0 of a Random run succeeds and iteration 1
fails. -/
def failingRngAlgebra : KeyAlgebra Nat String String String String String String String :=
  { testAlgebra with privNew := fun r => if r = 0 then some "G0" else none }

/-- The wallet of iteration 0 of a Random run under `failingRngAlgebra`. -/
def g0Wallet : EthereumWallet :=
  { emptyWallet with private_key := some "G0", public_key := some "PG0", address := "APG0" }

/-- Witness for C7: a Random run with count 3 under `failingRngAlgebra`
emits exactly the one wallet of iteration 0 and aborts at iteration 1. -/
theorem print_runs_sequential_abort_on_first_error_witness :
    EthereumCLI.print failingRngAlgebra (fun i => i) ⟨none, none, 3, false⟩
      = ([g0Wallet], .err .privateKeyError) := by
  have h := (print_runs_sequential_abort_on_first_error failingRngAlgebra (fun i => i)
    ⟨none, none, 3, false⟩
    (fun _ => g0Wallet)
    .privateKeyError 1
    (by decide)
    (by intro j hj
        have hj0 : j = 0 := by omega
        subst hj0
        decide)
    (by decide)).1
  simpa using h

end Wagyu
